import Mathlib

/-!
# Verification of the cortex ingester WAL and query-range splitter cores

This file is a shallow embedding, in Lean 4, of the two cores of the
repository:

* `pkg/querier/frontend/split_by_day.go` — the query-range splitter
  (`splitQuery`, `nextDayBoundary`), the fan-out gather loop inside `Do`,
  and the result mergers (`vectorMerge`, `matrixMerge`);
* `pkg/ingester/wal.go` — the WAL facade (`newWAL`, `Stop`), the
  checkpointer (`checkpoint`, `truncateSamples`) and recovery
  (`recover`, `recoverRecords`).

Go `int64` values are modelled as `Int`.  Go's `/` and `%` on integers
truncate toward zero; they are modelled by `Int.tdiv` and `Int.tmod`,
which have exactly those semantics.  Loops are modelled by structural
recursion; the one unbounded loop (`splitQuery`) takes explicit fuel,
with the fuel chosen so that it is provably sufficient on the inputs the
theorems quantify over.  External collaborators (the tsdb segmented log,
the in-memory series store, the prometheus data model) are out of scope
for the repository per its specification; where a definition models such
a collaborator rather than source in `src/`, its doc comment says so.
-/

namespace Cortex

/-! ## Query-range splitter: data model (split_by_day.go) -/

/-- `queryRangeRequest` (split_by_day.go): one range query.  `start` and
`«end»` are unix-ms timestamps, `step` is in ms. -/
structure queryRangeRequest where
  path : String
  start : Int
  «end» : Int
  step : Int
  query : String
  deriving Repr, DecidableEq

/-- `millisecondPerDay` (split_by_day.go line 14): 24h in ms. -/
def millisecondPerDay : Int := 86400000

/-- `nextDayBoundary` (split_by_day.go lines 107-112): round up to the
step before the next day boundary.  Go's truncating `/` and `%` are
`Int.tdiv` / `Int.tmod`. -/
def nextDayBoundary (t step : Int) : Int :=
  let offsetToDayBoundary := step - (Int.tmod (Int.tmod t millisecondPerDay) step)
  (Int.tdiv t millisecondPerDay + 1) * millisecondPerDay - offsetToDayBoundary

/-- The loop body of `splitQuery` (split_by_day.go lines 88-105), as a
structural recursion on explicit fuel.  Each Go iteration consumes one
unit of fuel; `splitQuery` below supplies fuel that is provably
sufficient whenever `0 ≤ start` and `0 < step` (each iteration then
advances `start` by at least one). -/
def splitQueryLoop (r : queryRangeRequest) : Nat → Int → List queryRangeRequest
  | 0, _ => []
  | fuel + 1, start =>
    if start < r.«end» then
      { path := r.path, start := start,
        «end» := if r.«end» ≤ nextDayBoundary start r.step + r.step then r.«end»
                 else nextDayBoundary start r.step,
        step := r.step, query := r.query }
        :: splitQueryLoop r fuel (nextDayBoundary start r.step + r.step)
    else []

/-- `splitQuery` (split_by_day.go lines 88-105): split one range query
into per-day sub-queries. -/
def splitQuery (r : queryRangeRequest) : List queryRangeRequest :=
  splitQueryLoop r ((r.«end» - r.start).toNat + 1) r.start

/-- The step-sample set of a range query: the arithmetic progression
`{start, start+step, …}` cut off at `«end»` (spec §4.5, §8). -/
def inSampleSet (q : queryRangeRequest) (t : Int) : Prop :=
  q.start ≤ t ∧ t ≤ q.«end» ∧ q.step ∣ (t - q.start)

instance (q : queryRangeRequest) (t : Int) : Decidable (inSampleSet q t) := by
  unfold inSampleSet; infer_instance

/-- Boolean mirror of `inSampleSet`, used in concrete evaluations. -/
def inSampleSetB (q : queryRangeRequest) (t : Int) : Bool :=
  decide (inSampleSet q t)

/-- Whether some sub-query in the list covers the sample point `t`. -/
def coversPoint (qs : List queryRangeRequest) (t : Int) : Bool :=
  qs.any (fun q => inSampleSetB q t)

/-! ## Arithmetic facts about `nextDayBoundary` -/

theorem millisecondPerDay_pos : (0:Int) < millisecondPerDay := by
  norm_num [millisecondPerDay]

/-- For nonnegative `t` and positive `step`, `nextDayBoundary` can be
read with Euclidean `/` and `%` (Go's truncating division agrees with
Euclidean division on nonnegative operands). -/
theorem nextDayBoundary_eq_ediv (t step : Int) (ht : 0 ≤ t) (hstep : 0 < step) :
    nextDayBoundary t step =
      (t / millisecondPerDay + 1) * millisecondPerDay - (step - (t % millisecondPerDay) % step) := by
  have hday := millisecondPerDay_pos
  have h1 : Int.tmod t millisecondPerDay = t % millisecondPerDay :=
    Int.tmod_eq_emod ht (le_of_lt hday)
  have h2 : Int.tdiv t millisecondPerDay = t / millisecondPerDay :=
    Int.tdiv_eq_ediv ht (le_of_lt hday)
  have hr : 0 ≤ t % millisecondPerDay := Int.emod_nonneg t (ne_of_gt hday)
  have h3 : Int.tmod (t % millisecondPerDay) step = (t % millisecondPerDay) % step :=
    Int.tmod_eq_emod hr (le_of_lt hstep)
  unfold nextDayBoundary
  rw [h1, h2, h3]

/-- Workhorse: for `0 ≤ t`, `0 < step`, `step ∣ day`, the value
`nextDayBoundary t step` lies on the step grid of `t`, at or after `t`,
strictly before the next day boundary, and within one step of it. -/
theorem nextDayBoundary_spec (t step : Int) (ht : 0 ≤ t) (hstep : 0 < step)
    (hdvd : step ∣ millisecondPerDay) :
    t ≤ nextDayBoundary t step ∧
    step ∣ (nextDayBoundary t step - t) ∧
    nextDayBoundary t step < (t / millisecondPerDay + 1) * millisecondPerDay ∧
    (t / millisecondPerDay + 1) * millisecondPerDay ≤ nextDayBoundary t step + step := by
  have hday := millisecondPerDay_pos
  obtain ⟨k, hk⟩ := hdvd
  rw [nextDayBoundary_eq_ediv t step ht hstep]
  set q := t / millisecondPerDay with hq
  set r := t % millisecondPerDay with hrdef
  have hr0 : 0 ≤ r := Int.emod_nonneg t (ne_of_gt hday)
  have hr1 : r < millisecondPerDay := Int.emod_lt_of_pos t hday
  have hqr : millisecondPerDay * q + r = t := Int.ediv_add_emod t millisecondPerDay
  set u := r / step with hu
  set m := r % step with hm
  have hm0 : 0 ≤ m := Int.emod_nonneg r (ne_of_gt hstep)
  have hm1 : m < step := Int.emod_lt_of_pos r hstep
  have hum : step * u + m = r := Int.ediv_add_emod r step
  -- from r < day = step * k and 0 ≤ m < step we get u < k
  have huk : u + 1 ≤ k := by
    have h1 : step * u < step * k := by omega
    have := (mul_lt_mul_left hstep).mp h1
    omega
  refine ⟨?_, ⟨k - 1 - u, ?_⟩, ?_, ?_⟩
  · -- t ≤ ndb:  ndb - t = step * (k - 1 - u) ≥ 0
    have hnn : 0 ≤ step * (k - 1 - u) := by
      have : (0:Int) ≤ k - 1 - u := by omega
      exact mul_nonneg (le_of_lt hstep) this
    have : (q + 1) * millisecondPerDay - (step - m) - t = step * (k - 1 - u) := by
      have ht' : t = millisecondPerDay * q + r := hqr.symm
      rw [ht', hk]
      ring_nf
      omega
    omega
  · -- step grid alignment
    have ht' : t = millisecondPerDay * q + r := hqr.symm
    rw [ht', hk]
    ring_nf
    omega
  · -- strictly before the next day boundary
    omega
  · -- within one step of the next day boundary
    omega

/-! ## Splitter loop invariants -/

/-- Once the loop guard fails, `splitQueryLoop` emits nothing (any fuel). -/
theorem splitQueryLoop_stop (r : queryRangeRequest) :
    ∀ fuel s, ¬ s < r.«end» → splitQueryLoop r fuel s = []
  | 0, _, _ => rfl
  | _ + 1, s, h => by simp [splitQueryLoop, h]

/-- Every emitted sub-query starts at or after the loop's current start. -/
theorem splitQueryLoop_start_le (r : queryRangeRequest) (hstep : 0 < r.step)
    (hdvd : r.step ∣ millisecondPerDay) :
    ∀ fuel (start : Int), 0 ≤ start →
      ∀ q ∈ splitQueryLoop r fuel start, start ≤ q.start := by
  intro fuel
  induction fuel with
  | zero => intro start _ q hq; simp [splitQueryLoop] at hq
  | succ fuel ih =>
    intro start h0 q hq
    by_cases h1 : start < r.«end»
    · simp only [splitQueryLoop, if_pos h1, List.mem_cons] at hq
      obtain ⟨hF1, _, _, _⟩ := nextDayBoundary_spec start r.step h0 hstep hdvd
      rcases hq with rfl | hq
      · exact le_refl _
      · have h0' : 0 ≤ nextDayBoundary start r.step + r.step := by omega
        have := ih (nextDayBoundary start r.step + r.step) h0' q hq
        omega
    · rw [splitQueryLoop_stop r _ start h1] at hq
      simp at hq

/-- The union of the step-sample sets of the emitted sub-queries is
exactly the step-sample set of the remaining range `[start, r.end]`,
provided the step divides one day. -/
theorem splitQueryLoop_union (r : queryRangeRequest) (hstep : 0 < r.step)
    (hdvd : r.step ∣ millisecondPerDay) :
    ∀ fuel (start : Int), 0 ≤ start → start < r.«end» →
      (r.«end» - start).toNat < fuel →
      ∀ t, (∃ q ∈ splitQueryLoop r fuel start, inSampleSet q t) ↔
        (start ≤ t ∧ t ≤ r.«end» ∧ r.step ∣ (t - start)) := by
  intro fuel
  induction fuel with
  | zero => intro start _ _ h2; omega
  | succ fuel ih =>
    intro start h0 h1 hfuel t
    obtain ⟨hF1, hF2, _, _⟩ := nextDayBoundary_spec start r.step h0 hstep hdvd
    simp only [splitQueryLoop, if_pos h1, List.exists_mem_cons_iff]
    generalize hgen : nextDayBoundary start r.step = n at *
    obtain ⟨c, hc⟩ := hF2
    by_cases hfin : r.«end» ≤ n + r.step
    · rw [splitQueryLoop_stop r fuel (n + r.step) (by omega)]
      simp only [if_pos hfin, inSampleSet, List.not_mem_nil, false_and, exists_false,
        or_false]
    · push_neg at hfin
      have h0' : 0 ≤ n + r.step := by omega
      have hfuel' : (r.«end» - (n + r.step)).toNat < fuel := by omega
      rw [ih (n + r.step) h0' hfin hfuel' t]
      rw [if_neg (by omega : ¬ r.«end» ≤ n + r.step)]
      simp only [inSampleSet]
      constructor
      · rintro (⟨ha, hb, hd⟩ | ⟨ha, hb, hd⟩)
        · exact ⟨ha, by omega, hd⟩
        · refine ⟨by omega, hb, ?_⟩
          have he : t - start = (t - (n + r.step)) + (n - start) + r.step := by ring
          rw [he]
          exact dvd_add (dvd_add hd ⟨c, hc⟩) dvd_rfl
      · rintro ⟨ha, hb, hd⟩
        by_cases htn : t ≤ n
        · exact Or.inl ⟨ha, htn, hd⟩
        · push_neg at htn
          have hdn : r.step ∣ (t - n) := by
            have he : t - n = (t - start) - (n - start) := by ring
            rw [he]
            exact dvd_sub hd ⟨c, hc⟩
          have hge : r.step ≤ t - n := Int.le_of_dvd (by omega) hdn
          refine Or.inr ⟨by omega, hb, ?_⟩
          have he : t - (n + r.step) = (t - n) - r.step := by ring
          rw [he]
          exact dvd_sub hdn dvd_rfl

/-- The emitted sub-queries have pairwise disjoint step-sample sets. -/
theorem splitQueryLoop_pairwise (r : queryRangeRequest) (hstep : 0 < r.step)
    (hdvd : r.step ∣ millisecondPerDay) :
    ∀ fuel (start : Int), 0 ≤ start →
      List.Pairwise (fun a b => ∀ t, ¬(inSampleSet a t ∧ inSampleSet b t))
        (splitQueryLoop r fuel start) := by
  intro fuel
  induction fuel with
  | zero => intro start _; simp [splitQueryLoop]
  | succ fuel ih =>
    intro start h0
    by_cases h1 : start < r.«end»
    · simp only [splitQueryLoop, if_pos h1]
      obtain ⟨hF1, _, _, _⟩ := nextDayBoundary_spec start r.step h0 hstep hdvd
      have h0' : 0 ≤ nextDayBoundary start r.step + r.step := by omega
      refine List.Pairwise.cons ?_ (ih _ h0')
      intro q hq t ⟨hta, htb⟩
      by_cases hfin : r.«end» ≤ nextDayBoundary start r.step + r.step
      · rw [splitQueryLoop_stop r fuel _ (by omega)] at hq
        simp at hq
      · have hqs := splitQueryLoop_start_le r hstep hdvd fuel _ h0' q hq
        rw [if_neg hfin] at hta
        obtain ⟨_, hta2, _⟩ := hta
        obtain ⟨htb1, _, _⟩ := htb
        simp only at hta2
        omega
    · rw [splitQueryLoop_stop r _ start h1]
      exact List.Pairwise.nil

/-- Every emitted sub-query is non-empty: its start is at most its end. -/
theorem splitQueryLoop_nonempty (r : queryRangeRequest) (hstep : 0 < r.step)
    (hdvd : r.step ∣ millisecondPerDay) :
    ∀ fuel (start : Int), 0 ≤ start →
      ∀ q ∈ splitQueryLoop r fuel start, q.start ≤ q.«end» := by
  intro fuel
  induction fuel with
  | zero => intro start _ q hq; simp [splitQueryLoop] at hq
  | succ fuel ih =>
    intro start h0 q hq
    by_cases h1 : start < r.«end»
    · simp only [splitQueryLoop, if_pos h1, List.mem_cons] at hq
      obtain ⟨hF1, _, _, _⟩ := nextDayBoundary_spec start r.step h0 hstep hdvd
      rcases hq with rfl | hq
      · simp only
        by_cases hfin : r.«end» ≤ nextDayBoundary start r.step + r.step
        · rw [if_pos hfin]; omega
        · rw [if_neg hfin]; omega
      · exact ih (nextDayBoundary start r.step + r.step) (by omega) q hq
    · rw [splitQueryLoop_stop r _ start h1] at hq
      simp at hq

/-! ## Claim C1: splitter coverage -/

/-- C1 (counterexample): as stated for every `step > 0`, splitter
coverage fails.  With `start = 0`, `end = 2·86400000`, `step = 7`, the
second sub-query starts at `86400000`, which is not a multiple of 7, so
its step-sample set contains points (e.g. `86400000` itself) that are
not in the original query's step-sample set: the union is not the
original set. -/
theorem splitQuery_coverage_counterexample :
    coversPoint
      (splitQuery { path := "", start := 0, «end» := 172800000, step := 7, query := "" })
      86400000 = true
    ∧ inSampleSetB { path := "", start := 0, «end» := 172800000, step := 7, query := "" }
        86400000 = false := by
  constructor
  · decide
  · decide

/-- C1 (amended): for every range query with `0 ≤ start < end`,
`step > 0` and `step` dividing one day (86400000 ms), the sub-queries
produced by `splitQuery` partition the original query's step-sample set
exactly: their union is the original step-sample set, and the
per-sub-query sets are pairwise disjoint. -/
theorem splitQuery_coverage (r : queryRangeRequest) (h0 : 0 ≤ r.start)
    (hlt : r.start < r.«end») (hstep : 0 < r.step)
    (hdvd : r.step ∣ millisecondPerDay) :
    (∀ t, (∃ q ∈ splitQuery r, inSampleSet q t) ↔ inSampleSet r t) ∧
    List.Pairwise (fun a b => ∀ t, ¬(inSampleSet a t ∧ inSampleSet b t))
      (splitQuery r) := by
  constructor
  · intro t
    have h := splitQueryLoop_union r hstep hdvd ((r.«end» - r.start).toNat + 1)
      r.start h0 hlt (by omega) t
    rw [splitQuery, h]
    exact Iff.rfl
  · exact splitQueryLoop_pairwise r hstep hdvd _ r.start h0

/-- C1 (witness): the coverage theorem applied to the concrete query
`start = 0`, `end = 2 days`, `step = 60000`. -/
theorem splitQuery_coverage_witness :
    (0:Int) ≤ 0 ∧ (0:Int) < 172800000 ∧ (0:Int) < 60000 ∧
    (60000:Int) ∣ millisecondPerDay ∧
    ((∀ t, (∃ q ∈ splitQuery ⟨"", 0, 172800000, 60000, ""⟩, inSampleSet q t) ↔
        inSampleSet ⟨"", 0, 172800000, 60000, ""⟩ t) ∧
      List.Pairwise (fun a b => ∀ t, ¬(inSampleSet a t ∧ inSampleSet b t))
        (splitQuery ⟨"", 0, 172800000, 60000, ""⟩)) :=
  ⟨le_refl 0, by norm_num, by norm_num, by decide,
    splitQuery_coverage _ (le_refl 0) (by norm_num) (by norm_num) (by decide)⟩

/-! ## Claim C8: no empty sub-queries -/

/-- Boolean check that a sub-query is non-empty (start ≤ end). -/
def subqueryNonEmptyB (q : queryRangeRequest) : Bool :=
  decide (q.start ≤ q.«end»)

/-- C8 (counterexample): with `start = 86399999`, `end = 2·86400000`,
`step = 7`, the first emitted sub-query is `[86399999, 86399993]`, whose
end is before its start: `splitQuery` does emit an empty sub-query. -/
theorem splitQuery_empty_subquery_counterexample :
    (splitQuery ⟨"", 86399999, 172800000, 7, ""⟩).all subqueryNonEmptyB = false := by
  decide

/-- C8 (amended): when additionally `start ≥ 0` and the step divides one
day, every sub-query emitted by `splitQuery` satisfies
`start_i ≤ end_i`, so its step-sample set is non-empty. -/
theorem splitQuery_no_empty_subquery (r : queryRangeRequest) (h0 : 0 ≤ r.start)
    (hstep : 0 < r.step) (hdvd : r.step ∣ millisecondPerDay) :
    ∀ q ∈ splitQuery r, q.start ≤ q.«end» :=
  splitQueryLoop_nonempty r hstep hdvd _ r.start h0

/-- C8 (witness): the theorem applied to the concrete query
`start = 1000`, `end = 2 days`, `step = 60000`. -/
theorem splitQuery_no_empty_subquery_witness :
    (0:Int) ≤ 1000 ∧ (0:Int) < 60000 ∧ (60000:Int) ∣ millisecondPerDay ∧
    ∀ q ∈ splitQuery ⟨"", 1000, 172800000, 60000, ""⟩, q.start ≤ q.«end» :=
  ⟨by norm_num, by norm_num, by decide,
    splitQuery_no_empty_subquery _ (by norm_num) (by norm_num) (by decide)⟩

/-! ## Claim C6: `nextDayBoundary` formula and characterization -/

/-- C6 (counterexample): the characterization fails when the step does
not divide one day.  At `t = 0`, `step = 7`: `nextDayBoundary 0 7 =
86399993`, which is not congruent to `0` modulo `7`, and `86399999` is a
strictly larger time below the day boundary that is congruent to `0`
modulo `7`. -/
theorem nextDayBoundary_greatest_counterexample :
    nextDayBoundary 0 7 = 86399993 ∧
    ¬ ((7:Int) ∣ (nextDayBoundary 0 7 - 0)) ∧
    (7:Int) ∣ ((86399999:Int) - 0) ∧
    (86399999:Int) < (Int.tdiv 0 millisecondPerDay + 1) * millisecondPerDay ∧
    nextDayBoundary 0 7 < 86399999 := by
  refine ⟨by decide, by decide, by decide, by decide, by decide⟩

/-- C6 (amended): for every `t ≥ 0` and `step > 0`, `nextDayBoundary`
equals the stated formula (with Go's truncating division); when
moreover `step` divides one day (86400000 ms), the value is the largest
time strictly less than the next day boundary that is congruent to `t`
modulo `step`. -/
theorem nextDayBoundary_formula_and_greatest (t step : Int) (ht : 0 ≤ t)
    (hstep : 0 < step) :
    nextDayBoundary t step =
      (Int.tdiv t millisecondPerDay + 1) * millisecondPerDay -
        (step - Int.tmod (Int.tmod t millisecondPerDay) step) ∧
    (step ∣ millisecondPerDay →
      step ∣ (nextDayBoundary t step - t) ∧
      nextDayBoundary t step < (Int.tdiv t millisecondPerDay + 1) * millisecondPerDay ∧
      ∀ T, T < (Int.tdiv t millisecondPerDay + 1) * millisecondPerDay →
        step ∣ (T - t) → T ≤ nextDayBoundary t step) := by
  have hday := millisecondPerDay_pos
  have hbridge : Int.tdiv t millisecondPerDay = t / millisecondPerDay :=
    Int.tdiv_eq_ediv ht (le_of_lt hday)
  refine ⟨rfl, fun hdvd => ?_⟩
  obtain ⟨hF1, hF2, hF3, hF4⟩ := nextDayBoundary_spec t step ht hstep hdvd
  rw [hbridge]
  refine ⟨hF2, hF3, fun T hT hTd => ?_⟩
  by_contra hgt
  push_neg at hgt
  have hdn : step ∣ (T - nextDayBoundary t step) := by
    have he : T - nextDayBoundary t step = (T - t) - (nextDayBoundary t step - t) := by
      ring
    rw [he]
    exact dvd_sub hTd hF2
  have hge : step ≤ T - nextDayBoundary t step := Int.le_of_dvd (by omega) hdn
  omega

/-- C6 (witness): the theorem applied at `t = 5`, `step = 10`. -/
theorem nextDayBoundary_formula_and_greatest_witness :
    (0:Int) ≤ 5 ∧ (0:Int) < 10 ∧
    (nextDayBoundary 5 10 =
      (Int.tdiv 5 millisecondPerDay + 1) * millisecondPerDay -
        (10 - Int.tmod (Int.tmod 5 millisecondPerDay) 10) ∧
    ((10:Int) ∣ millisecondPerDay →
      (10:Int) ∣ (nextDayBoundary 5 10 - 5) ∧
      nextDayBoundary 5 10 < (Int.tdiv 5 millisecondPerDay + 1) * millisecondPerDay ∧
      ∀ T, T < (Int.tdiv 5 millisecondPerDay + 1) * millisecondPerDay →
        (10:Int) ∣ (T - 5) → T ≤ nextDayBoundary 5 10)) :=
  ⟨by norm_num, by norm_num,
    nextDayBoundary_formula_and_greatest 5 10 (by norm_num) (by norm_num)⟩

/-! ## WAL facade (wal.go): `newWAL` and `Stop`

The external tsdb segmented log and the Go runtime effects are modelled
as oracle inputs: each external call's outcome is a parameter of the
embedded function, and the embedding reproduces wal.go's control flow
over those outcomes. -/

/-- The Go-channel state of the `wrapper` struct that `Stop` touches
(wal.go lines 53-63): whether `quit` has been closed, and whether the
two logs have been closed. -/
structure wrapperChans where
  quitClosed : Bool
  samplesClosed : Bool
  checkpointsClosed : Bool
  deriving Repr, DecidableEq

/-- Go semantics of `close(ch)`: closing an already-closed channel
panics with "close of closed channel"; otherwise the channel becomes
closed. -/
def closeChannel (alreadyClosed : Bool) : Except String Bool :=
  if alreadyClosed then Except.error "close of closed channel"
  else Except.ok true

/-- `Stop` (wal.go lines 105-111): `close(w.quit)`, wait for the
background loop, then close both logs.  A panic is modelled as
`Except.error`; the `Close` calls' error returns are discarded by the
source, so they cannot fail here. -/
def wrapperStop (w : wrapperChans) : Except String wrapperChans :=
  match closeChannel w.quitClosed with
  | Except.error e => Except.error e
  | Except.ok q =>
    -- w.wait.Wait() has no effect on the modelled state; the two
    -- Close() calls' errors are discarded by the source
    Except.ok { quitClosed := q, samplesClosed := true, checkpointsClosed := true }

/-- C5 (counterexample): starting from the freshly constructed wrapper
(`quit` open, logs open), the first `Stop` returns, and the second
`Stop` panics on `close(w.quit)` instead of being a no-op. -/
theorem wrapperStop_second_panics_counterexample :
    (wrapperStop ⟨false, false, false⟩).bind wrapperStop =
      Except.error "close of closed channel" := rfl

/-- C5 (amended): WAL shutdown on the enabled WAL is not idempotent:
whenever a call to `Stop` has returned (without panicking), a second
call to `Stop` panics with Go's "close of closed channel" run-time
error, because `Stop` unconditionally closes the `quit` channel. -/
theorem wrapperStop_not_idempotent (w w' : wrapperChans)
    (h : wrapperStop w = Except.ok w') :
    wrapperStop w' = Except.error "close of closed channel" := by
  unfold wrapperStop closeChannel at *
  by_cases hq : w.quitClosed
  · simp [hq] at h
  · simp [hq] at h
    simp [← h]

/-- C5 (witness): the first `Stop` on a fresh wrapper returns, and the
second call panics. -/
theorem wrapperStop_not_idempotent_witness :
    wrapperStop ⟨false, false, false⟩ = Except.ok ⟨true, true, true⟩ ∧
    wrapperStop ⟨true, true, true⟩ = Except.error "close of closed channel" :=
  ⟨rfl, wrapperStop_not_idempotent ⟨false, false, false⟩ ⟨true, true, true⟩ rfl⟩

/-- `newWAL` (wal.go lines 65-103), control flow over oracle outcomes.
`samplesOpen` / `checkpointsOpen` are the results of the two `wal.New`
calls, and `recoverResult` is the result of `w.recover(ctx)`.  The
returned `Bool` tells whether the enabled wrapper (vs the no-op WAL) was
produced.  Note line 97: the result of `w.recover` is discarded by the
source. -/
def newWAL (enabled recover : Bool)
    (samplesOpen checkpointsOpen : Except String Unit)
    (recoverResult : Except String Unit) : Except String Bool :=
  if !enabled then Except.ok false
  else
    match samplesOpen with
    | Except.error e => Except.error e
    | Except.ok _ =>
      match checkpointsOpen with
      | Except.error e => Except.error e
      | Except.ok _ =>
        -- wal.go line 96-98: `if cfg.recover { w.recover(ctx) }`;
        -- the error returned by recover is ignored
        let _ := if recover then some recoverResult else none
        Except.ok true

/-- C4: when recovery is enabled and replay fails, `newWAL`
nevertheless returns successfully: the error from `w.recover` is
discarded at wal.go line 97, so ingester startup does *not* fail.  This
contradicts the claim (and spec table row `recovery-fatal`), which the
error plumbing of `recover`/`recoverRecords` shows to be the intent:
the code is the slip. -/
theorem newWAL_ignores_recover_error :
    newWAL true true (Except.ok ()) (Except.ok ())
      (Except.error "log scan failed") = Except.ok true := rfl

/-! ## Checkpointer (wal.go): `checkpoint` and `truncateSamples`

The per-series appends, the `Segments()` read and the `Truncate` call
are external-log operations; their outcomes are oracle parameters. -/

/-- First error among the per-series checkpoint appends (the
`checkpointSeries` calls in the loop at wal.go lines 159-173; the loop
returns on the first error). -/
def firstError : List (Option String) → Option String
  | [] => none
  | none :: rest => firstError rest
  | some e :: _ => some e

/-- `checkpoint` (wal.go lines 146-186) restricted to its effect on the
`lastCheckpointSegment` tracker.  Returns `(error?, new value of
lastCheckpointSegment)`.  `numSeries` is the live-series count computed
at the top; `appendResults` are the outcomes of the per-series
`checkpointSeries` appends in iteration order; `segmentsResult` is the
outcome of `w.checkpoints.Segments()` (first, last); `truncateResult`
is the outcome of `w.checkpoints.Truncate(w.lastCheckpointSegment)`.
The ticker pacing and fingerprint locking have no effect on the
tracker. -/
def checkpointOutcome (numSeries : Nat) (appendResults : List (Option String))
    (segmentsResult : Except String (Int × Int)) (truncateResult : Option String)
    (lastCheckpointSegment : Int) : Option String × Int :=
  if numSeries = 0 then (none, lastCheckpointSegment)
  else
    match firstError appendResults with
    | some e => (some e, lastCheckpointSegment)
    | none =>
      match segmentsResult with
      | Except.error e => (some e, lastCheckpointSegment)
      | Except.ok (_, last) =>
        match truncateResult with
        | some e => (some e, lastCheckpointSegment)
        | none => (none, last)

/-- `truncateSamples` (wal.go lines 208-220) restricted to its effect on
the `lastSamplesSegment` tracker: read `Segments()`, truncate up to the
old tracker value, and only then store the observed `last`. -/
def truncateSamplesOutcome (segmentsResult : Except String (Int × Int))
    (truncateResult : Option String) (lastSamplesSegment : Int) :
    Option String × Int :=
  match segmentsResult with
  | Except.error e => (some e, lastSamplesSegment)
  | Except.ok (_, last) =>
    match truncateResult with
    | some e => (some e, lastSamplesSegment)
    | none => (none, last)

/-- C7: the segment trackers are updated atomically with success.  If
`checkpoint()` returns an error, `lastCheckpointSegment` is unchanged;
if `truncateSamples()` returns an error, `lastSamplesSegment` is
unchanged; on successful completion (reaching its truncate) each field
equals the `last` segment identifier observed from the corresponding
log immediately before the truncate. -/
theorem tracker_updates_atomic (numSeries : Nat)
    (appendResults : List (Option String))
    (segCk segSm : Except String (Int × Int)) (truncCk truncSm : Option String)
    (lastCk lastSm : Int) :
    ((checkpointOutcome numSeries appendResults segCk truncCk lastCk).1.isSome →
      (checkpointOutcome numSeries appendResults segCk truncCk lastCk).2 = lastCk) ∧
    (∀ first last, segCk = Except.ok (first, last) →
      (checkpointOutcome numSeries appendResults segCk truncCk lastCk).1 = none →
      numSeries ≠ 0 →
      (checkpointOutcome numSeries appendResults segCk truncCk lastCk).2 = last) ∧
    ((truncateSamplesOutcome segSm truncSm lastSm).1.isSome →
      (truncateSamplesOutcome segSm truncSm lastSm).2 = lastSm) ∧
    (∀ first last, segSm = Except.ok (first, last) →
      (truncateSamplesOutcome segSm truncSm lastSm).1 = none →
      (truncateSamplesOutcome segSm truncSm lastSm).2 = last) := by
  unfold checkpointOutcome truncateSamplesOutcome
  refine ⟨?_, ?_, ?_, ?_⟩
  · intro h
    split at h
    · simp at h
    · split at h <;> try simp_all
      split at h <;> try simp_all
      split at h <;> simp_all
  · intro first last hseg h hN
    subst hseg
    rw [if_neg hN] at h ⊢
    split at h <;> try simp_all
    split at h <;> simp_all
  · intro h
    split at h <;> try simp_all
    split at h <;> simp_all
  · intro first last hseg h
    subst hseg
    simp only at h ⊢
    split at h <;> simp_all

/-- C7 (witness): concrete instances — a failing append leaves the
checkpoint tracker at its old value 3; a clean pass moves it to the
observed last segment 7; a failing samples-Segments read leaves the
samples tracker at 4; a clean samples truncate moves it to 9. -/
theorem tracker_updates_atomic_witness :
    (checkpointOutcome 1 [some "append failed"] (Except.ok (0, 5)) none 3).2 = 3 ∧
    (checkpointOutcome 1 [none] (Except.ok (0, 7)) none 3).2 = 7 ∧
    (truncateSamplesOutcome (Except.error "segments failed") none 4).2 = 4 ∧
    (truncateSamplesOutcome (Except.ok (0, 9)) none 4).2 = 9 := by
  refine ⟨?_, ?_, ?_, ?_⟩
  · exact (tracker_updates_atomic 1 [some "append failed"] (Except.ok (0, 5))
      (Except.ok (0, 5)) none none 3 3).1 (by simp [checkpointOutcome, firstError])
  · exact (tracker_updates_atomic 1 [none] (Except.ok (0, 7)) (Except.ok (0, 7))
      none none 3 3).2.1 0 7 rfl (by simp [checkpointOutcome, firstError]) (by simp)
  · exact (tracker_updates_atomic 1 [] (Except.error "segments failed")
      (Except.error "segments failed") none none 4 4).2.2.1
      (by simp [truncateSamplesOutcome])
  · exact (tracker_updates_atomic 1 [] (Except.ok (0, 9)) (Except.ok (0, 9))
      none none 4 4).2.2.2 0 9 rfl (by simp [truncateSamplesOutcome])

/-! ## Recovery, Phase B (wal.go lines 250-287): sample-log replay

The replay callback for the `samples` log is source code in `src/`.
The in-memory series store it drives (`userState`, `fpToSeries`,
`createSeriesWithFingerprint`, `memorySeries.add`) lives outside the
three source files and is modelled from the spec where noted. -/

/-- An ordered label set. -/
abbrev Labels := List (String × String)

/-- One label-set declaration inside a `Record` (spec §3). -/
structure recordLabels where
  fingerprint : Int
  labels : Labels
  deriving Repr, DecidableEq

/-- One sample inside a `Record` (spec §3).  The float64 value is
carried opaquely and modelled as an integer. -/
structure recordSample where
  fingerprint : Int
  timestamp : Int
  value : Int
  deriving Repr, DecidableEq

/-- `Record` (spec §3): the unit appended to the sample log. -/
structure Record where
  userId : String
  labels : List recordLabels
  samples : List recordSample
  deriving Repr, DecidableEq

/-- Modelled from the spec: a `memorySeries` of the in-memory store
(not under `src/`), reduced to what replay touches — its label set and
its appended sample pairs `(timestamp, value)`. -/
structure memorySeries where
  labels : Labels
  samplePairs : List (Int × Int)
  deriving Repr, DecidableEq

/-- Modelled from the spec: `memorySeries.add` (not under `src/`);
appends one sample, failing on out-of-order or duplicate timestamps
(spec §4.3: "Append failures (out-of-order, duplicate)"). -/
def seriesAdd (s : memorySeries) (pair : Int × Int) : Except String memorySeries :=
  match s.samplePairs.getLast? with
  | some lastPair =>
    if pair.1 ≤ lastPair.1 then Except.error "sample timestamp out of order"
    else Except.ok { s with samplePairs := s.samplePairs ++ [pair] }
  | none => Except.ok { s with samplePairs := s.samplePairs ++ [pair] }

/-- Modelled from the spec: one tenant's `userState`, reduced to its
fingerprint → series map (`fpToSeries`), as an insertion-ordered
association list. -/
structure userState where
  fpToSeries : List (Int × memorySeries)
  deriving Repr, DecidableEq

/-- Modelled from the spec: `state.fpToSeries.get`. -/
def stateGet (st : userState) (fp : Int) : Option memorySeries :=
  List.lookup fp st.fpToSeries

/-- Series mutation through the map: the Go code mutates the series in
place through its pointer; here the entry's value is replaced, keys
untouched. -/
def stateSet (st : userState) (fp : Int) (s : memorySeries) : userState :=
  { fpToSeries := st.fpToSeries.map (fun p => if p.1 == fp then (p.1, s) else p) }

/-- Modelled from the spec: `state.createSeriesWithFingerprint` (not
under `src/`): installs a fresh, empty series under the fingerprint. -/
def stateCreate (st : userState) (fp : Int) (l : Labels) : userState :=
  { fpToSeries := st.fpToSeries ++ [(fp, { labels := l, samplePairs := [] })] }

/-- The label-declarations loop of the samples callback (wal.go lines
259-269): create a series for every declared fingerprint not yet
present. -/
def replayLabels (st : userState) (ls : List recordLabels) : userState :=
  ls.foldl (fun st l =>
    match stateGet st l.fingerprint with
    | some _ => st
    | none => stateCreate st l.fingerprint l.labels) st

/-- The samples loop of the samples callback (wal.go lines 271-284).
On a fingerprint with no series the callback does `return nil`: the
whole remainder of the record's samples is abandoned (not just the one
sample).  An append error is logged at info level and the loop
continues. -/
def replaySamples (st : userState) : List recordSample → userState
  | [] => st
  | s :: rest =>
    match stateGet st s.fingerprint with
    | none => st
    | some series =>
      match seriesAdd series (s.timestamp, s.value) with
      | Except.ok series2 => replaySamples (stateSet st s.fingerprint series2) rest
      | Except.error _ => replaySamples st rest

/-- The whole samples-log callback for one `Record` (wal.go lines
250-287): the labels loop, then the samples loop. -/
def replayRecord (st : userState) (rec : Record) : userState :=
  replaySamples (replayLabels st rec.labels) rec.samples

/-- Modelled from the spec: the per-tenant map of user states and
`userStates.getOrCreate`. -/
def statesGetOrCreate (sts : List (String × userState)) (uid : String) : userState :=
  (List.lookup uid sts).getD { fpToSeries := [] }

/-- Store a tenant's state back into the per-tenant map. -/
def statesSet (sts : List (String × userState)) (uid : String) (st : userState) :
    List (String × userState) :=
  if (List.lookup uid sts).isSome then
    sts.map (fun p => if p.1 == uid then (p.1, st) else p)
  else sts ++ [(uid, st)]

/-- Phase B replay over the whole sample log: one callback invocation
per `Record`, in log order (wal.go lines 250-289 with the scan loop of
`recoverRecords`). -/
def replaySampleLog (sts : List (String × userState)) (records : List Record) :
    List (String × userState) :=
  records.foldl (fun sts rec =>
    statesSet sts rec.userId (replayRecord (statesGetOrCreate sts rec.userId) rec)) sts

/-- C2 (counterexample): state with a series only for fingerprint 2;
one record whose samples are first a fingerprint-1 sample (no series)
and then a fingerprint-2 sample (series present).  The claim says the
fingerprint-2 sample is appended; the code's `return nil` abandons the
rest of the record, so the fingerprint-2 series stays empty. -/
theorem replayRecord_skips_rest_counterexample :
    stateGet
      (replayRecord ⟨[(2, ⟨[], []⟩)]⟩ ⟨"u", [], [⟨1, 10, 100⟩, ⟨2, 10, 100⟩]⟩) 2 =
      some ⟨[], []⟩ ∧
    some (⟨[], [(10, 100)]⟩ : memorySeries) ≠ some (⟨[], []⟩ : memorySeries) := by
  exact ⟨rfl, by decide⟩

/-- One step of the samples loop on a single sample whose fingerprint
is present: append, or keep the series unchanged when the append fails
(the failure is only logged). -/
def replayStep (st : userState) (s : recordSample) : userState :=
  match stateGet st s.fingerprint with
  | none => st
  | some series =>
    match seriesAdd series (s.timestamp, s.value) with
    | Except.ok series2 => stateSet st s.fingerprint series2
    | Except.error _ => st

theorem lookup_map_set_isSome (fp fp' : Int) (s : memorySeries)
    (l : List (Int × memorySeries)) :
    (List.lookup fp' (l.map (fun p => if p.1 == fp then (p.1, s) else p))).isSome
      = (List.lookup fp' l).isSome := by
  induction l with
  | nil => rfl
  | cons p rest ih =>
    simp only [List.map_cons]
    by_cases hpf : (p.1 == fp) = true
    · rw [if_pos hpf]
      cases hcmp : fp' == p.1 with
      | true => simp only [List.lookup, hcmp]; rfl
      | false => simp only [List.lookup, hcmp]; exact ih
    · rw [if_neg hpf]
      cases hcmp : fp' == p.1 with
      | true => simp only [List.lookup, hcmp]
      | false => simp only [List.lookup, hcmp]; exact ih

theorem stateGet_stateSet_isSome (st : userState) (fp fp' : Int) (s : memorySeries) :
    (stateGet (stateSet st fp s) fp').isSome = (stateGet st fp').isSome :=
  lookup_map_set_isSome fp fp' s st.fpToSeries

theorem stateGet_replayStep_isSome (st : userState) (s : recordSample) (fp : Int) :
    (stateGet (replayStep st s) fp).isSome = (stateGet st fp).isSome := by
  cases hg : stateGet st s.fingerprint with
  | none => simp [replayStep, hg]
  | some series =>
    simp only [replayStep, hg]
    cases hadd : seriesAdd series (s.timestamp, s.value) with
    | ok series2 =>
      simp only [hadd]
      exact stateGet_stateSet_isSome st s.fingerprint fp series2
    | error e => simp only [hadd]

/-- The samples loop processes exactly the longest prefix of the
record's samples whose fingerprints all have a series: replay up to the
first absent fingerprint, then stop for this record. -/
theorem replaySamples_eq_takeWhile (st : userState) (samples : List recordSample) :
    replaySamples st samples =
      (samples.takeWhile (fun s => (stateGet st s.fingerprint).isSome)).foldl
        replayStep st := by
  induction samples generalizing st with
  | nil => rfl
  | cons s rest ih =>
    rw [List.takeWhile_cons]
    cases hg : stateGet st s.fingerprint with
    | none =>
      simp only [hg, Option.isSome_none, Bool.false_eq_true, if_false]
      simp [replaySamples, hg]
    | some series =>
      simp only [hg, Option.isSome_some, if_true, List.foldl_cons]
      have hcons : replaySamples st (s :: rest) = replaySamples (replayStep st s) rest := by
        simp only [replaySamples, replayStep, hg]
        cases hadd : seriesAdd series (s.timestamp, s.value) <;> simp [hadd]
      rw [hcons, ih (replayStep st s)]
      have hpred : (fun s' : recordSample =>
          (stateGet (replayStep st s) s'.fingerprint).isSome) =
          (fun s' : recordSample => (stateGet st s'.fingerprint).isSome) := by
        funext s'
        exact stateGet_replayStep_isSome st s s'.fingerprint
      rw [hpred]

/-- C2 (amended): during sample-log replay, each `Record`'s samples are
processed in order only up to (and excluding) the first sample whose
fingerprint has no series: that sample and all remaining samples of the
same `Record` are silently skipped.  Samples before that point whose
fingerprint is present are appended to their series, an append failure
being logged and not aborting the loop (`replayStep` keeps the series on
failure), and replay always continues with the subsequent `Record`s of
the log. -/
theorem replay_missing_fingerprint_skips_rest_of_record :
    (∀ (st : userState) (samples : List recordSample),
      replaySamples st samples =
        (samples.takeWhile (fun s => (stateGet st s.fingerprint).isSome)).foldl
          replayStep st) ∧
    (∀ (sts : List (String × userState)) (rec : Record) (recs : List Record),
      replaySampleLog sts (rec :: recs) =
        replaySampleLog
          (statesSet sts rec.userId
            (replayRecord (statesGetOrCreate sts rec.userId) rec)) recs) :=
  ⟨replaySamples_eq_takeWhile, fun _ _ _ => rfl⟩

/-! ## Merger and fan-out gather (split_by_day.go lines 26-158)

The prometheus result types (`model.Matrix`, `model.Vector`,
`model.SampleStream`, `model.Metric`) and the `apiResponse` envelope
live outside the three source files; they are modelled below with the
shapes the source manipulates.  A `*model.SampleStream` pointer is
modelled as `Option sampleStream`, `none` standing for a nil pointer. -/

/-- `model.SampleStream`: a metric's label set plus its sample pairs
`(timestamp, value)`.  Float64 sample values are carried opaquely as
integers. -/
structure sampleStream where
  metric : Labels
  values : List (Int × Int)
  deriving Repr, DecidableEq

/-- Ordered insertion used to sort label pairs by name. -/
def insertLabelSorted (x : String × String) :
    List (String × String) → List (String × String)
  | [] => [x]
  | y :: ys => if x.1 ≤ y.1 then x :: y :: ys else y :: insertLabelSorted x ys

/-- Sort a label set by label name. -/
def sortLabels (m : Labels) : Labels := m.foldr insertLabelSorted []

/-- Modelled from the spec: the "canonical string form" of a label set
(spec §4.7), standing for `model.Metric.String()` which renders the
sorted label pairs.  Used only as the grouping key of the matrix
merge. -/
def metricString (m : Labels) : String :=
  "\x7b" ++
    String.intercalate ", "
      ((sortLabels m).map (fun p => p.1 ++ "=\x22" ++ p.2 ++ "\x22")) ++
    "\x7d"

/-- The `Result` payload of a query-range response: a vector (metric
plus one sample each), a matrix (`[]*model.SampleStream`, entries being
possibly-nil pointers), or anything else (including Go's nil
interface), which the merge dispatch rejects. -/
inductive resultData where
  | vector : List (Labels × Int × Int) → resultData
  | matrix : List (Option sampleStream) → resultData
  | nilResult : resultData
  deriving Repr, DecidableEq

/-- `queryRangeResponse` (the `Data` envelope): result type tag and
payload.  The type itself lives outside `src/`; only the two fields the
splitter touches are modelled. -/
structure queryRangeResponse where
  resultType : String
  result : resultData
  deriving Repr, DecidableEq

/-- `apiResponse`: status plus data envelope, modelled from the shape
used by split_by_day.go and the package's tests; the Go zero value is
`⟨"", ⟨"", resultData.nilResult⟩⟩`. -/
structure apiResponse where
  status : String
  data : queryRangeResponse
  deriving Repr, DecidableEq

/-- `response` (split_by_day.go lines 20-24): one downstream answer. -/
structure response where
  req : queryRangeRequest
  resp : apiResponse
  err : Option String
  deriving Repr, DecidableEq

/-- The Go type assertion `resp.Data.Result.(model.Matrix)` in the
context where dispatch already chose the matrix branch. -/
def asMatrix (rd : resultData) : List (Option sampleStream) :=
  match rd with
  | resultData.matrix m => m
  | _ => []

/-- The Go type assertion `resp.Data.Result.(model.Vector)`. -/
def asVector (rd : resultData) : List (Labels × Int × Int) :=
  match rd with
  | resultData.vector v => v
  | _ => []

/-- In-place update of the stream stored under a key (the Go code
mutates the stream through the `*model.SampleStream` held in the
map). -/
def updateStream (out : List (String × sampleStream)) (k : String)
    (v : sampleStream) : List (String × sampleStream) :=
  out.map (fun p => if p.1 == k then (p.1, v) else p)

/-- `matrixMerge` (split_by_day.go lines 133-158).  The Go map
`output` is modelled as an insertion-ordered association list (Go's
map iteration order is unspecified; insertion order is one admissible
order).  `make(model.Matrix, len(output))` allocates `len(output)` nil
pointers, and the subsequent `append`s extend that slice — modelled by
`List.replicate output.length none ++ …`.  A nil entry in an input
matrix would make the Go code dereference nil; inputs of interest have
none and such entries are skipped here. -/
def matrixMerge (resps : List response) : apiResponse :=
  let output := resps.foldl (fun out resp =>
    (asMatrix resp.resp.data.result).foldl (fun out entry =>
      match entry with
      | none => out
      | some stream =>
        let metric := metricString stream.metric
        match List.lookup metric out with
        | none => out ++ [(metric, stream)]
        | some existing =>
          updateStream out metric
            { existing with values := existing.values ++ stream.values }) out)
    ([] : List (String × sampleStream))
  { status := "",
    data := { resultType := "matrix",
              result := resultData.matrix
                (List.replicate output.length (none : Option sampleStream) ++
                  output.map (fun p => some p.2)) } }

/-- `vectorMerge` (split_by_day.go lines 120-131): concatenate the
per-response vectors in list order. -/
def vectorMerge (resps : List response) : apiResponse :=
  { status := "",
    data := { resultType := "vector",
              result := resultData.vector
                (resps.foldl (fun out r => out ++ asVector r.resp.data.result) []) } }

/-- Stable ascending insertion by sub-query start, modelling
`sort.Sort(byFirstTime(responses))` (split_by_day.go lines 72,
114-118). -/
def insertByStart (x : response) : List response → List response
  | [] => [x]
  | y :: ys => if x.req.start < y.req.start then x :: y :: ys else y :: insertByStart x ys

/-- Sort responses by their sub-query `start`. -/
def sortByFirstTime (l : List response) : List response :=
  l.foldr insertByStart []

/-- The gather loop of `Do` (split_by_day.go lines 50-65), folded over
the downstream answers in arrival order: an erroneous answer records
the first error (and triggers `cancel()`, which has no further effect
on the modelled state) and is dropped; successful answers are kept in
arrival order.  The loop runs once per dispatched sub-query. -/
def gatherLoop (arrivals : List response) : List response × Option String :=
  arrivals.foldl (fun acc resp =>
    match resp.err with
    | some e =>
      (acc.1, match acc.2 with
              | none => some e
              | some e0 => some e0)
    | none => (acc.1 ++ [resp], acc.2)) ([], none)

/-- `Do` (split_by_day.go lines 26-86) as a sequential function of the
split request and the downstream answers in arrival order (`arrivals`
must contain exactly one entry per dispatched sub-query; the goroutine
scheduling itself is not modelled).  After gathering: fail with the
first error if any; sort the successes; empty list → empty successful
response; otherwise dispatch on the first response's result type. -/
def Do (r : queryRangeRequest) (arrivals : List response) : Except String apiResponse :=
  -- line 29: `reqs := splitQuery(r)`; the goroutine per req is not
  -- modelled — `arrivals` holds one answer per element of `reqs`
  let _reqs := splitQuery r
  let gathered := gatherLoop arrivals
  match gathered.2 with
  | some e => Except.error e
  | none =>
    let responses := sortByFirstTime gathered.1
    match responses with
    | [] => Except.ok { status := "", data := { resultType := "", result := resultData.nilResult } }
    | r0 :: _ =>
      match r0.resp.data.result with
      | resultData.vector _ => Except.ok (vectorMerge responses)
      | resultData.matrix _ => Except.ok (matrixMerge responses)
      | resultData.nilResult => Except.error "unexpected response type"

/-- C3: merging the two single-stream matrix responses of the claim
concatenates the value sequences onto the first occurrence's stream —
but the resulting matrix has *two* entries, a nil pointer followed by
the merged stream, because `make(model.Matrix, len(output))` allocates
`len(output)` nil entries that the `append`s then extend.  The
repository's own merge test (`TestMergeAPIResponses`, "Basic merging of
two responses") and spec scenario 7 expect exactly one stream, so the
slice-allocation is the slip. -/
theorem matrixMerge_nil_prefix :
    matrixMerge
      [⟨⟨"", 0, 1, 1, ""⟩, ⟨"", ⟨"matrix", resultData.matrix [some ⟨[], [(0, 0), (1, 1)]⟩]⟩⟩, none⟩,
       ⟨⟨"", 2, 3, 1, ""⟩, ⟨"", ⟨"matrix", resultData.matrix [some ⟨[], [(2, 2), (3, 3)]⟩]⟩⟩, none⟩] =
      ⟨"", ⟨"matrix",
        resultData.matrix [none, some ⟨[], [(0, 0), (1, 1), (2, 2), (3, 3)]⟩]⟩⟩ := by
  rfl

/-- C10: for every range query with `start ≥ end`, `splitQuery` returns
no sub-queries, so `Do` receives no downstream answers (one answer per
dispatched sub-query) and returns the empty successful response without
invoking the downstream executor. -/
theorem Do_empty_range (r : queryRangeRequest) (h : r.«end» ≤ r.start)
    (arrivals : List response) (hlen : arrivals.length = (splitQuery r).length) :
    splitQuery r = [] ∧
    Do r arrivals =
      Except.ok { status := "", data := { resultType := "", result := resultData.nilResult } } := by
  have hsplit : splitQuery r = [] := by
    unfold splitQuery
    rw [splitQueryLoop]
    rw [if_neg (by omega)]
  refine ⟨hsplit, ?_⟩
  have harr : arrivals = [] := by
    rw [hsplit] at hlen
    exact List.length_eq_zero.mp hlen
  subst harr
  rfl

/-- C10 (witness): the concrete query `start = 5`, `end = 3`. -/
theorem Do_empty_range_witness :
    ((3:Int) ≤ 5) ∧
    ([] : List response).length = (splitQuery ⟨"", 5, 3, 1, ""⟩).length ∧
    (splitQuery ⟨"", 5, 3, 1, ""⟩ = [] ∧
      Do ⟨"", 5, 3, 1, ""⟩ [] =
        Except.ok { status := "", data := { resultType := "", result := resultData.nilResult } }) :=
  ⟨by norm_num, rfl, Do_empty_range ⟨"", 5, 3, 1, ""⟩ (by norm_num) [] rfl⟩

end Cortex
